import Mathlib

/-!
Shallow embedding of the cut/cell algebra of `cubes/query/cells.py` and of
the aggregation driver and result stream of `cubes/sql/browser.py`,
together with theorems settling the frozen claims about them.

Python values are rendered as follows: a Python `str` is a Lean `String`;
a value that may be `None` is an `Option`; machine behaviour that raises an
exception is an `Except PyErr` result.  Dimension identifiers are the
strings the code stores in `Cut.dimension` (the class annotates the field
as `str`); `None` can flow into that slot through `cut_from_dict`, hence
`Option String`.
-/

namespace Cubes

/-- Python exception kinds that the embedded code can raise. -/
inductive PyErr where
  | argumentError
  | unboundLocalError
  | notImplementedError
  | attributeError
  | keyError
  | typeError
  | valueError
  | indexError
  | unboundedDrilldown
deriving DecidableEq, Repr

/-- Equality of embedded outcomes is decidable (needed to evaluate the
model on concrete inputs). -/
instance exceptDecEq {ε α : Type} [DecidableEq ε] [DecidableEq α] :
    DecidableEq (Except ε α) :=
  fun a b =>
    match a, b with
    | .ok x, .ok y =>
        if h : x = y then isTrue (by rw [h])
        else isFalse (by intro hh; cases hh; exact h rfl)
    | .error e, .error f =>
        if h : e = f then isTrue (by rw [h])
        else isFalse (by intro hh; cases hh; exact h rfl)
    | .ok _, .error _ => isFalse (by intro hh; cases hh)
    | .error _, .ok _ => isFalse (by intro hh; cases hh)

/-- An element of a hierarchy path: a Python string, or `None`
(`_path_part_unescape` produces `None` for the `__null__` token). -/
abbrev PathElem := Option String

/-- A hierarchy path: list of member keys, root to leaf. -/
abbrev Path := List PathElem

/-- The `NULL_PATH_VALUE` constant of `cells.py`. -/
def NULL_PATH_VALUE : String := "__null__"

/-- Python `str(s)` applied to a path element (`string_from_path` does
`str(s)` before escaping; `str(None)` is the string `None`). -/
def pyStr : PathElem → String
  | none => "None"
  | some s => s

/-- The characters matched by `PATH_PART_ESCAPE_PATTERN`, i.e.
`([\\!|:;,-])`. -/
def reservedChar (c : Char) : Bool :=
  c = '\\' || c = '!' || c = '|' || c = ':' || c = ';' || c = ',' || c = '-'

/-- Character-level rendering of
`PATH_PART_ESCAPE_PATTERN.sub(r"\\\1", part)`: every reserved character
(backslash included) is prefixed with a backslash. -/
def escapeCh : List Char → List Char
  | [] => []
  | c :: rest =>
      if reservedChar c then '\\' :: c :: escapeCh rest
      else c :: escapeCh rest

/-- Character-level rendering of
`PATH_PART_UNESCAPE_PATTERN.sub(r"\1", part)`: a left-to-right scan that
drops a backslash standing before a reserved character; a backslash not
followed by a reserved character is kept and scanning resumes at the next
character (regex `\\([\\!|:;,-])` semantics). -/
def unescapeCh : List Char → List Char
  | [] => []
  | c :: rest =>
      if c = '\\' then
        match rest with
        | [] => ['\\']
        | d :: rest' =>
            if reservedChar d then d :: unescapeCh rest'
            else '\\' :: unescapeCh (d :: rest')
      else c :: unescapeCh rest

/-- `_path_part_escape`: `None` becomes the `__null__` token, any other
part is escaped. -/
def _path_part_escape : Option String → String
  | none => NULL_PATH_VALUE
  | some s => String.mk (escapeCh s.data)

/-- `_path_part_unescape`: the `__null__` token becomes `None`, any other
part is unescaped. -/
def _path_part_unescape (part : String) : Option String :=
  if part = NULL_PATH_VALUE then none
  else some (String.mk (unescapeCh part.data))

/-- Splitting on a separator not preceded by a backslash — the
`(?<!\\)sep` regexes of `cells.py`.  `prev` is the character just before
the current position (`none` at the start of the string, where the
lookbehind vacuously succeeds).  `consHead` prepends a character to the
piece currently being accumulated. -/
def consHead (c : Char) : List (List Char) → List (List Char)
  | [] => [[c]]
  | piece :: pieces => (c :: piece) :: pieces

/-- See `consHead`: the split itself. -/
def splitCh (sep : Char) : Option Char → List Char → List (List Char)
  | _, [] => [[]]
  | prev, c :: rest =>
      if c = sep ∧ prev ≠ some '\\' then
        [] :: splitCh sep (some c) rest
      else
        consHead c (splitCh sep (some c) rest)

/-- String-level wrapper for `splitCh`, starting with no previous
character. -/
def splitUnescaped (sep : Char) (s : String) : List String :=
  (splitCh sep none s.data).map String.mk

/-- Python `sep.join(parts)`. -/
def joinWith (sep : String) : List String → String
  | [] => ""
  | [x] => x
  | x :: rest => x ++ sep ++ joinWith sep rest

/-- `string_from_path`: empty or `None` path encodes to the empty string,
otherwise each element is `str`-ed, escaped and the results are joined
with `,`.  (The `RE_ELEMENT` check in the source only emits a log warning
and does not change the result, so it is not modelled.) -/
def string_from_path (path : List PathElem) : String :=
  if path.isEmpty then ""
  else joinWith (",") (path.map (fun e => _path_part_escape (some (pyStr e))))

/-- `path_from_string`: the empty string decodes to the empty path,
otherwise the string is split on unescaped commas and each piece is
unescaped. -/
def path_from_string (s : String) : List PathElem :=
  if s = "" then []
  else (splitUnescaped ',' s).map _path_part_unescape

/-- `string_from_hierarchy`: `dim@hier` when the hierarchy is truthy
(non-`None`, non-empty), otherwise just the escaped dimension. -/
def string_from_hierarchy (dim : Option String) (hier : Option String) : String :=
  match hier with
  | some h =>
      if h = "" then _path_part_escape dim
      else _path_part_escape dim ++ "@" ++ _path_part_escape (some h)
  | none => _path_part_escape dim

/-! The cut model: three variants sharing the envelope
(dimension, hierarchy, invert, hidden). -/

/-- The `Cut` class hierarchy of `cells.py` as a closed tagged union:
`PointCut` (a `path`), `RangeCut` (`from_path`, `to_path`) and `SetCut`
(`paths`).  `dimension` is `Option String` because `cut_from_dict` can
store `None` there; the path slots are `Option` because the constructors
accept `None` (and `RangeCut` uses it for open ends). -/
inductive Cut where
  | point (dimension : Option String) (path : Option Path)
      (hierarchy : Option String) (invert : Bool) (hidden : Bool)
  | range (dimension : Option String) (from_path : Option Path)
      (to_path : Option Path) (hierarchy : Option String)
      (invert : Bool) (hidden : Bool)
  | set (dimension : Option String) (paths : Option (List Path))
      (hierarchy : Option String) (invert : Bool) (hidden : Bool)
deriving DecidableEq, Repr

/-- The `dimension` attribute of a cut. -/
def Cut.dimension : Cut → Option String
  | .point d _ _ _ _ => d
  | .range d _ _ _ _ _ => d
  | .set d _ _ _ _ => d

/-- The `hierarchy` attribute of a cut. -/
def Cut.hierarchy : Cut → Option String
  | .point _ _ h _ _ => h
  | .range _ _ _ h _ _ => h
  | .set _ _ h _ _ => h

/-- The `invert` attribute of a cut. -/
def Cut.invert : Cut → Bool
  | .point _ _ _ i _ => i
  | .range _ _ _ _ i _ => i
  | .set _ _ _ i _ => i

/-- The `hidden` attribute of a cut. -/
def Cut.hidden : Cut → Bool
  | .point _ _ _ _ h => h
  | .range _ _ _ _ _ h => h
  | .set _ _ _ _ h => h

/-- Python `isinstance(cut, PointCut)`. -/
def Cut.isPoint : Cut → Bool
  | .point _ _ _ _ _ => true
  | _ => false

/-- Python truthiness of an optional list (`None` and `[]` are falsy). -/
def truthyPath : Option Path → Bool
  | none => false
  | some l => !l.isEmpty

/-- `Cut.level_depth` of the three subclasses.  `PointCut` takes
`len(self.path)` (a `TypeError` on `None`); `RangeCut` branches on the
truthiness of the two endpoint paths and implicitly returns `None` when
both are falsy; `SetCut` takes the max of the path lengths (`TypeError`
on `None`, `ValueError` — `max` of an empty sequence — on `[]`). -/
def Cut.level_depth : Cut → Except PyErr (Option Nat)
  | .point _ p _ _ _ =>
      match p with
      | none => .error .typeError
      | some l => .ok (some l.length)
  | .range _ f t _ _ _ =>
      if truthyPath f ∧ ¬truthyPath t then .ok (some (f.getD []).length)
      else if ¬truthyPath f ∧ truthyPath t then .ok (some (t.getD []).length)
      else if truthyPath f ∧ truthyPath t then
        .ok (some (max (f.getD []).length (t.getD []).length))
      else .ok none
  | .set _ ps _ _ _ =>
      match ps with
      | none => .error .typeError
      | some [] => .error .valueError
      | some (l :: ls) => .ok (some ((ls.map List.length).foldl max l.length))

/-- The `__str__` form of a cut: `(!)?dimension(@hierarchy)?:payload`.
A `None` path slot renders like an empty path (`if not path` in
`string_from_path` treats `None` and `[]` alike); a `SetCut` whose
`paths` slot is `None` would raise in Python when iterated — no claim
evaluates that case, it is rendered here as the empty join. -/
def Cut.str : Cut → String
  | .point d p h i _ =>
      (if i then "!" else "") ++ string_from_hierarchy d h ++ ":"
        ++ string_from_path (p.getD [])
  | .range d f t h i _ =>
      (if i then "!" else "") ++ string_from_hierarchy d h ++ ":"
        ++ string_from_path (f.getD []) ++ "-" ++ string_from_path (t.getD [])
  | .set d ps h i _ =>
      (if i then "!" else "") ++ string_from_hierarchy d h ++ ":"
        ++ joinWith (";") ((ps.getD []).map string_from_path)

/-- The `__eq__` methods of the three cut classes: same concrete kind,
same dimension, same kind-specific path data and same invert flag;
hierarchy and hidden do not participate.  Cross-kind comparison is
`False` (the `isinstance` guard). -/
def cutEq : Cut → Cut → Bool
  | .point d p _ i _, .point d' p' _ i' _ =>
      decide (d = d') && decide (p = p') && decide (i = i')
  | .range d f t _ i _, .range d' f' t' _ i' _ =>
      decide (d = d') && decide (f = f') && decide (t = t') && decide (i = i')
  | .set d ps _ i _, .set d' ps' _ i' _ =>
      decide (d = d') && decide (ps = ps') && decide (i = i')
  | _, _ => false

/-- Normalisation of a cut to the fields `__eq__` looks at (hierarchy and
hidden cleared); two cuts are `cutEq` exactly when their normalisations
are equal. -/
def normCut : Cut → Cut
  | .point d p _ i _ => .point d p none i false
  | .range d f t _ i _ => .range d f t none i false
  | .set d ps _ i _ => .set d ps none i false

/-! The cell: an ordered list of cuts. -/

/-- The `Cell` class: a list of cuts (the object also holds no other
state). -/
structure Cell where
  cuts : List Cut
deriving DecidableEq, Repr

/-- Python `cut in cuts` membership, using the cut classes' `__eq__`
(the list item is the left operand of the comparison). -/
def listContains (cuts : List Cut) (c : Cut) : Bool :=
  cuts.any (fun d => cutEq d c)

/-- `Cell.__eq__`: the lengths must agree and every cut of the receiver
must occur (by cut equality) in the other cell's list. -/
def Cell.eq (a b : Cell) : Bool :=
  decide (a.cuts.length = b.cuts.length)
    && a.cuts.all (fun c => listContains b.cuts c)

/-- `Cell._dimension_cut_index` builds the list of the cuts' dimension
names and calls `list.index`; this is the index of the first
occurrence, or `None`. -/
def indexOfName : List (Option String) → Option String → Option Nat
  | [], _ => none
  | n :: rest, x =>
      if n = x then some 0
      else (indexOfName rest x).map (· + 1)

/-- `Cell._dimension_cut_index`. -/
def Cell._dimension_cut_index (cell : Cell) (dim : Option String) : Option Nat :=
  indexOfName (cell.cuts.map Cut.dimension) dim

/-- `Cell.slice`: replace the first cut sharing the new cut's dimension,
or append the new cut. -/
def Cell.slice (cell : Cell) (cut : Cut) : Cell :=
  match cell._dimension_cut_index cut.dimension with
  | some i => Cell.mk (cell.cuts.set i cut)
  | none => Cell.mk (cell.cuts ++ [cut])

/-- Index of the first cut satisfying a predicate (used to render the
identity-based removal `[cut for cut in self.cuts if cut is not dim_cut]`:
the object found by the preceding search is the one at this index, and
every list in this module holds distinct objects, so removal by found
index is the runtime behaviour). -/
def findIdxCut (p : Cut → Bool) : List Cut → Option Nat
  | [] => none
  | c :: rest =>
      if p c then some 0
      else (findIdxCut p rest).map (· + 1)

/-- `Cell.point_cut_for_dimension`: the first `PointCut` whose dimension
equals the argument. -/
def Cell.point_cut_for_dimension (cell : Cell) (dim : String) : Option Cut :=
  cell.cuts.find? (fun c => c.isPoint && decide (c.dimension = some dim))

/-- The `path` attribute of a point cut (`None` for the other kinds,
which do not carry it). -/
def Cut.pointPath : Cut → Option Path
  | .point _ p _ _ _ => p
  | _ => none

/-- `Cell.rollup_dim`.  The external `hierarchy.rollup(path, level)`
collaborator (consumed from the dimensional model, not part of `src/`)
is passed in as `hrollup`; `dimension.hierarchy(hierarchy)` resolution
has no effect on the result beyond producing that collaborator.  When the
cell has no point cut for the dimension the method returns
`copy.copy(self)` — rendered as the cell value itself. -/
def Cell.rollup_dim (hrollup : Option Path → Option String → Path)
    (cell : Cell) (dim : String) (level : Option String)
    (hier : Option String) : Cell :=
  match findIdxCut (fun c => c.isPoint && decide (c.dimension = some dim)) cell.cuts with
  | none => cell
  | some i =>
      match cell.cuts[i]? with
      | none => cell
      | some dimCut =>
          let cuts := cell.cuts.eraseIdx i
          let rollupPath := hrollup dimCut.pointPath level
          if rollupPath.isEmpty then Cell.mk cuts
          else Cell.mk (cuts ++ [Cut.point (some dim) (some rollupPath) hier false false])

/-! Parsing: `cut_from_string` and its regular expressions. -/

/-- A character allowed bare inside `PATH_ELEMENT`
(`(?:\\.|[^:;|-])*`): anything except the four excluded separators. -/
def peChar (c : Char) : Bool :=
  !(c = ':' || c = ';' || c = '|' || c = '-')

/-- Full-match of `RE_POINT` (and `RE_ELEMENT`): a sequence of tokens,
each a backslash followed by any character or a single non-excluded
character.  The two alternatives can overlap on backslashes, so both
segmentations are tried. -/
def rePointCh : List Char → Bool
  | [] => true
  | '\\' :: c :: rest => rePointCh rest || rePointCh (c :: rest)
  | c :: rest => peChar c && rePointCh rest

/-- Full-match of `RE_SET` (`^(PE)(;(PE))*$`): like `rePointCh` but a
bare `;` may separate consecutive path elements. -/
def reSetCh : List Char → Bool
  | [] => true
  | '\\' :: c :: rest => reSetCh rest || reSetCh (c :: rest)
  | c :: rest => (c = ';' || peChar c) && reSetCh rest

/-- Full-match of `RE_RANGE` (`^(PE)?-(PE)?$`): scan for the single
unconsumed `-`; what follows must be a path element. -/
def reRangeCh : List Char → Bool
  | [] => false
  | '-' :: rest => rePointCh rest
  | '\\' :: c :: rest => reRangeCh rest || reRangeCh (c :: rest)
  | c :: rest => peChar c && reRangeCh rest

/-- Python `\w` word characters (ASCII view: alphanumeric or
underscore). -/
def wordChar (c : Char) : Bool :=
  c.isAlphanum || c = '_'

/-- Whether `dim_hier_pattern` (`(?P<invert>!)?(?P<dim>\w+)(@(?P<hier>\w+))?`,
applied with `re.match`, so only anchored at the start) matches the
dimension spec: after an optional `!` there must be at least one word
character. -/
def dimHierMatches (s : String) : Bool :=
  match s.data with
  | [] => false
  | '!' :: rest =>
      match rest with
      | [] => false
      | c :: _ => wordChar c
  | c :: _ => wordChar c

/-- `cut_from_string(string)` with the default `cube=None` (the form the
round-trip claim uses; a non-`None` cube fails even earlier, at
`cube.dimension(dimension)`).  The function annotates the locals
`dimension: str` and `hierarchy: str` but, because `cube` is `None`, never
assigns them, so every branch that builds a cut raises
`UnboundLocalError` when it reads `dimension`; only a payload matching
none of the three patterns reaches the final `ArgumentError`.  The
ordering and the guards below mirror the source exactly. -/
def cut_from_string (s : String) : Except PyErr Cut :=
  match splitUnescaped ':' s with
  | [dimspec, payload] =>
      if dimHierMatches dimspec then
        if payload = "" then
          .error .unboundLocalError
        else if rePointCh payload.data then
          .error .unboundLocalError
        else if reSetCh payload.data then
          .error .unboundLocalError
        else if reRangeCh payload.data then
          .error .unboundLocalError
        else
          .error .argumentError
      else .error .argumentError
  | _ => .error .argumentError

/-! The dict codec: `Cut.to_dict` and `cut_from_dict`. -/

/-- A cut description dictionary.  A field holds `none` when the key is
absent or maps to `None` (`dict.get` collapses the two); `type` is the
only key read without `.get`, and its absence is a `KeyError`. -/
structure CutDict where
  type : Option String := none
  dimension : Option String := none
  hierarchy : Option String := none
  level_depth : Option (Option Nat) := none
  invert : Option Bool := none
  hidden : Option Bool := none
  path : Option Path := none
  paths : Option (List Path) := none
  fromPath : Option Path := none
  toPath : Option Path := none
deriving DecidableEq, Repr

/-- Truthy filter the base `Cut.to_dict` applies to the hierarchy
(`self.hierarchy if self.hierarchy else None`). -/
def truthyHier : Option String → Option String
  | none => none
  | some h => if h = "" then none else some h

/-- `Cut.to_dict` of the three subclasses; `level_depth()` is computed
first by the shared envelope and can raise. -/
def Cut.to_dict (c : Cut) : Except PyErr CutDict := do
  let ld ← c.level_depth
  match c with
  | .point d p h i hid =>
      pure { type := some ("point"), dimension := d, hierarchy := truthyHier h,
             level_depth := some ld, invert := some i, hidden := some hid,
             path := p }
  | .range d f t h i hid =>
      pure { type := some ("range"), dimension := d, hierarchy := truthyHier h,
             level_depth := some ld, invert := some i, hidden := some hid,
             fromPath := f, toPath := t }
  | .set d ps h i hid =>
      pure { type := some ("set"), dimension := d, hierarchy := truthyHier h,
             level_depth := some ld, invert := some i, hidden := some hid,
             paths := ps }

/-- Python `str.lower()` (ASCII view, which covers the type tags). -/
def lowerChar (c : Char) : Char :=
  if 'A' ≤ c ∧ c ≤ 'Z' then Char.ofNat (c.toNat + 32) else c

/-- See `lowerChar`. -/
def pyLower (s : String) : String :=
  String.mk (s.data.map lowerChar)

/-- `cut_from_dict(desc)` with `cube=None`: dispatch on the
case-insensitive `type` (`desc["type"].lower()`), read only the
kind-specific payload, the hierarchy and `invert` (default `False`);
`hidden` is never read, so the constructors are called with their
`hidden=False` default. -/
def cut_from_dict (d : CutDict) : Except PyErr Cut :=
  match d.type with
  | none => .error .keyError
  | some t =>
      if pyLower t = ("point") then
        .ok (.point d.dimension d.path d.hierarchy (d.invert.getD false) false)
      else if pyLower t = ("set") then
        .ok (.set d.dimension d.paths d.hierarchy (d.invert.getD false) false)
      else if pyLower t = ("range") then
        .ok (.range d.dimension d.fromPath d.toPath d.hierarchy
              (d.invert.getD false) false)
      else .error .argumentError

/-! `Cell.rollup`. -/

/-- The roll-up specification: a single dimension name, a list of names,
or a mapping name to target level. -/
inductive RollupSpec where
  | single (s : String)
  | listOf (l : List String)
  | mapping (m : List (String × String))
deriving DecidableEq, Repr

/-- The `cuts` dict `Cell.rollup` builds (`cuts[cut.dimension] = cut` per
cut in order, so the last cut of a dimension wins), queried by name. -/
def dimDictGet (cuts : List Cut) (name : String) : Option Cut :=
  cuts.reverse.find? (fun c => decide (c.dimension = some name))

/-- The loop of `Cell.rollup`'s list branch.  A dimension absent from the
dict is skipped.  For a present cut the source then runs
`if isinstance(cut, PointCut): raise NotImplementedError("Only PointCuts
are currently supported ...")` — the check is inverted, so a point cut
raises.  A non-point cut proceeds to `dim = cut.dimension` followed by
`dim.hierarchy()` — an attribute access on the stored string — and to
`cut.path`, an attribute absent from `RangeCut`/`SetCut`; either way the
iteration raises `AttributeError`. -/
def rollupListGo (cuts : List Cut) : List String → Except PyErr (List Cut)
  | [] => .ok []
  | d :: rest =>
      match dimDictGet cuts d with
      | none => rollupListGo cuts rest
      | some cut =>
          if cut.isPoint then .error .notImplementedError
          else .error .attributeError

/-- `Cell.rollup(rollup)`.  A string is wrapped into a one-element list.
A mapping falls through `elif isinstance(self.drilldown, dict)` — which
tests the bound method `Cell.drilldown`, never a dict — to the final
`raise ArgumentError("Rollup is of unknown type: ...")`. -/
def Cell.rollup (cell : Cell) (spec : RollupSpec) : Except PyErr Cell :=
  match spec with
  | .single s => (rollupListGo cell.cuts [s]).map Cell.mk
  | .listOf l => (rollupListGo cell.cuts l).map Cell.mk
  | .mapping _ => .error .argumentError

/-! `Cell.deepest_levels`: needs the external dimensional model. -/

/-- Modelled from the spec: a hierarchy of the external dimensional model
(§6 of the spec) — a name and its ordered level list (level key names).
The metadata classes live outside `src/`. -/
structure HierM where
  name : String
  levels : List String
deriving DecidableEq, Repr

/-- Modelled from the spec: the external dimensional model's
`dimension.hierarchy(name)` lookup, total over the identifiers the cell
mentions. -/
structure DimModel where
  hierarchy : Option String → Option String → HierM

/-- A `(dimension, hierarchy, level)` triple as produced by
`deepest_levels` (the level is `None` for an empty-path cut that is
included). -/
abbrev LevelTriple := Option String × String × Option String

/-- Python truthiness of the `level_depth()` value (`None` and `0` are
falsy). -/
def depthTruthy : Option Nat → Bool
  | none => false
  | some n => n ≠ 0

/-- The loop body of `Cell.deepest_levels`.  `item` is the loop-carried
local variable: the source's `levels.append(item)` sits after the
`if depth: ... elif include_empty: ...` conditional, so when a cut has a
falsy depth and `include_empty` is false the *previous* iteration's
`item` is appended again — and on the first iteration the variable is
unbound, an `UnboundLocalError`. -/
def deepestLevelsGo (m : DimModel) (include_empty : Bool) :
    Option LevelTriple → List Cut → Except PyErr (List LevelTriple)
  | _, [] => .ok []
  | item, cut :: rest => do
      let depth ← cut.level_depth
      let dim := cut.dimension
      let hier := m.hierarchy dim cut.hierarchy
      let item' ←
        if depthTruthy depth then
          match hier.levels[depth.getD 0 - 1]? with
          | some lv => pure (some (dim, hier.name, some lv))
          | none => Except.error PyErr.indexError
        else if include_empty then
          pure (some (dim, hier.name, none))
        else
          pure item
      match item' with
      | none => .error .unboundLocalError
      | some it => do
          let rest' ← deepestLevelsGo m include_empty (some it) rest
          pure (it :: rest')

/-- `Cell.deepest_levels(include_empty=False)`. -/
def Cell.deepest_levels (m : DimModel) (cell : Cell)
    (include_empty : Bool) : Except PyErr (List LevelTriple) :=
  deepestLevelsGo m include_empty none cell.cuts

/-! The aggregation driver: `SQLBrowser.provide_aggregate`.  Statement
construction is delegated to the external SQL toolkit; what the claims
are about is which queries are executed, in which order, relative to the
cardinality guard.  Executed queries are recorded in a trace. -/

/-- The three queries `provide_aggregate` can execute. -/
inductive QueryTag where
  | summary
  | drilldownQ
  | countQ
deriving DecidableEq, Repr

/-- The inputs of a `provide_aggregate` call that determine its control
flow: the browser toggles, whether a drilldown / split is present,
pagination, and whether the drilldown dimension combination exceeds the
cardinality guard (`assert_low_cardinality`, modelled from the spec:
the method lives in the base-class module outside `src/`; it raises the
unbounded-drilldown error exactly when the combination is over the
limit). -/
structure AggArgs where
  includeSummary : Bool
  includeCellCount : Bool
  drilldown : Bool
  split : Bool
  page : Option Nat
  pageSize : Option Nat
  highCardinality : Bool
deriving DecidableEq, Repr

/-- The shape of the `AggregationResult` the driver fills in: which parts
were produced. -/
structure AggResultM where
  summary : Bool
  cells : Bool
  totalCellCount : Bool
deriving DecidableEq, Repr

/-- Python truthiness of an optional number (`None` and `0` falsy) —
the `page_size and page is not None` guard. -/
def truthyNat : Option Nat → Bool
  | none => false
  | some n => n ≠ 0

/-- `SQLBrowser.provide_aggregate`, reduced to its execution skeleton.
The summary block runs first whenever `include_summary` is on or there is
no drilldown/split; only then, inside the drilldown block, does the
unpaginated call reach `assert_low_cardinality`.  The result is paired
with the trace of queries executed before returning or raising. -/
def provide_aggregate (a : AggArgs) : Except PyErr AggResultM × List QueryTag :=
  let summaryStep :=
    if a.includeSummary || !(a.drilldown || a.split) then
      (true, [QueryTag.summary])
    else (false, [])
  let summaryDone := summaryStep.1
  let trace := summaryStep.2
  if a.drilldown || a.split then
    if !(truthyNat a.pageSize && a.page.isSome) && a.highCardinality then
      (.error .unboundedDrilldown, trace)
    else
      let trace := trace ++ [QueryTag.drilldownQ]
      if a.includeCellCount then
        (.ok ⟨summaryDone, true, true⟩, trace ++ [QueryTag.countQ])
      else
        (.ok ⟨summaryDone, true, false⟩, trace)
  else
    (.ok ⟨summaryDone, false, false⟩, trace)

/-! The result stream: `ResultIterator`. -/

/-- A cell value in a result row (`None` models SQL NULL). -/
abbrev PyVal := Option Int

/-- A raw result row, as fetched from the cursor. -/
abbrev Row := List PyVal

/-- A `ResultIterator`: the cursor is pre-rendered as the sequence of
batches `fetchmany` will return, plus the column labels and the
`exclude_if_null` attribute (`None` after `__init__`). -/
structure ResultIteratorM where
  batches : List (List Row)
  labels : List String
  exclude_if_null : Option (List String)
deriving DecidableEq, Repr

/-- Python truthiness of the `exclude_if_null` attribute (`None` and the
empty list are falsy). -/
def truthyStrList : Option (List String) → Bool
  | none => false
  | some l => !l.isEmpty

/-- The rows the `while True` fetch loop will see: batches are consumed
in order and an empty `fetchmany` result breaks the loop. -/
def fetchRows : List (List Row) → List Row
  | [] => []
  | b :: rest => if b.isEmpty then [] else b ++ fetchRows rest

/-- The per-row body of `ResultIterator.__iter__`.  When the
`exclude_if_null` test is truthy the filter line evaluates the generator
expression `any(cell[agg] is None for agg in self.exclude_if_nul)` —
`exclude_if_nul` is a misspelling of the attribute set in `__init__` (and
`cell` is an undefined name), so the first row processed with the filter
enabled raises `AttributeError` instead of being filtered.  Otherwise the
row is yielded as a label-to-value dictionary. -/
def iterRows (labels : List String) (excl : Bool) :
    List Row → Except PyErr (List (List (String × PyVal)))
  | [] => .ok []
  | row :: rest =>
      if excl then .error .attributeError
      else do
        let rest' ← iterRows labels excl rest
        .ok (labels.zip row :: rest')

/-- Full iteration of a `ResultIterator` (collecting the lazily yielded
dictionaries in order). -/
def ResultIteratorM.iterate (it : ResultIteratorM) :
    Except PyErr (List (List (String × PyVal))) :=
  iterRows it.labels (truthyStrList it.exclude_if_null) (fetchRows it.batches)

/-! Concrete values used by the counterexamples and witnesses. -/

/-- `PointCut("date", ["2004"])`. -/
def samplePoint : Cut :=
  Cut.point (some ("date")) (some [some ("2004")]) none false false

/-- `RangeCut("date", ["2004"], ["2010"])`. -/
def sampleRange : Cut :=
  Cut.range (some ("date")) (some [some ("2004")])
    (some [some ("2010")]) none false false

/-- A one-cut cell holding `samplePoint`. -/
def cellPointDate : Cell := Cell.mk [samplePoint]

/-- A one-cut cell holding `sampleRange`. -/
def cellRangeDate : Cell := Cell.mk [sampleRange]

/-- `PointCut("d", ["1"])`. -/
def cutX : Cut := Cut.point (some ("d")) (some [some ("1")]) none false false

/-- `PointCut("d", ["2"])`. -/
def cutY : Cut := Cut.point (some ("d")) (some [some ("2")]) none false false

/-- `Cell([x, x])`: the same cut twice. -/
def cellXX : Cell := Cell.mk [cutX, cutX]

/-- `Cell([x, y])`. -/
def cellXY : Cell := Cell.mk [cutX, cutY]

/-- `Cell([y, x])`. -/
def cellYX : Cell := Cell.mk [cutY, cutX]

/-- A dimensional model in which every dimension resolves to a single
default hierarchy with three levels. -/
def sampleDimModel : DimModel :=
  DimModel.mk (fun _ _ => HierM.mk ("default") [("L1"), ("L2"), ("L3")])

/-- `PointCut("d", [])`: a point cut with an empty path. -/
def cutEmptyPath : Cut :=
  Cut.point (some ("e")) (some []) none false false

/-- A cell whose only cut has an empty path. -/
def cellEmptyOnly : Cell := Cell.mk [cutEmptyPath]

/-- A cell with a one-level point cut followed by an empty-path cut. -/
def cellMixed : Cell := Cell.mk [cutX, cutEmptyPath]

/-- An unpaginated aggregate call with a drilldown over the cardinality
limit, summary included (the defaults). -/
def aggHighSummaryOn : AggArgs :=
  { includeSummary := true, includeCellCount := true, drilldown := true,
    split := false, page := none, pageSize := none, highCardinality := true }

/-- The same call with `include_summary` turned off. -/
def aggHighSummaryOff : AggArgs :=
  { aggHighSummaryOn with includeSummary := false }

/-- A result iterator holding one batch of two rows (one with a NULL
aggregate) with the null-exclusion list set. -/
def itExcl : ResultIteratorM :=
  { batches := [[[some 1], [none]]], labels := [("a_sum")],
    exclude_if_null := some [("a_sum")] }

/-- The same iterator with null-exclusion left at its `__init__` value. -/
def itPlain : ResultIteratorM :=
  { itExcl with exclude_if_null := none }

/-- The dictionary `PointCut("d", ["1"], hidden=True).to_dict()`
produces. -/
def sampleCutDict : CutDict :=
  { type := some ("point"), dimension := some ("d"), hierarchy := none,
    level_depth := some (some 1), invert := some false, hidden := some true,
    path := some [some ("1")] }

/-- The cut `cut_from_dict` returns for `sampleCutDict`. -/
def samplePointShown : Cut :=
  Cut.point (some ("d")) (some [some ("1")]) none false false

/-- `PointCut("d", ["1"], hidden=True)`. -/
def samplePointHidden : Cut :=
  Cut.point (some ("d")) (some [some ("1")]) none false true

/-- Whether an `Except` result is a success. -/
def isOkE (e : Except PyErr Cut) : Bool :=
  match e with
  | .ok _ => true
  | .error _ => false

/-- A list of cuts without duplicates with respect to the cut classes'
`__eq__` (pairwise inequality). -/
def noDupCuts : List Cut → Bool
  | [] => true
  | c :: rest => !listContains rest c && noDupCuts rest

/-! Helper lemmas about the codec. -/

/-- A non-backslash head passes through `unescapeCh` unchanged. -/
theorem unescapeCh_cons_ne (c : Char) (l : List Char) (h : c ≠ '\\') :
    unescapeCh (c :: l) = c :: unescapeCh l := by
  rw [unescapeCh.eq_def]
  simp [h]

/-- A reserved head is escaped to a backslash pair. -/
theorem escapeCh_cons_pos (c : Char) (l : List Char) (h : reservedChar c = true) :
    escapeCh (c :: l) = '\\' :: c :: escapeCh l := by
  rw [escapeCh.eq_def]
  simp [h]

/-- A non-reserved head is passed through by the escaper. -/
theorem escapeCh_cons_neg (c : Char) (l : List Char) (h : ¬reservedChar c = true) :
    escapeCh (c :: l) = c :: escapeCh l := by
  rw [escapeCh.eq_def]
  simp [h]

/-- Unescaping inverts escaping. -/
theorem unescape_escape (l : List Char) : unescapeCh (escapeCh l) = l := by
  induction l with
  | nil => rfl
  | cons c rest ih =>
      by_cases h : reservedChar c = true
      · rw [escapeCh_cons_pos c _ h, unescapeCh.eq_def]
        simp [h, ih]
      · have hc : c ≠ '\\' := by
          intro e; subst e; simp [reservedChar] at h
        rw [escapeCh_cons_neg c _ h, unescapeCh_cons_ne c _ hc, ih]

/-- Escaping a non-empty character list gives a non-empty list. -/
theorem escapeCh_ne_nil (l : List Char) (h : l ≠ []) : escapeCh l ≠ [] := by
  cases l with
  | nil => exact absurd rfl h
  | cons c rest =>
      by_cases hr : reservedChar c = true
      · rw [escapeCh_cons_pos c _ hr]; simp
      · rw [escapeCh_cons_neg c _ hr]; simp

/-- Splitting an escaped element on unescaped commas never splits:
every comma in the output of `escapeCh` is directly preceded by its own
escaping backslash. -/
theorem splitCh_escape (l : List Char) :
    ∀ prev, splitCh ',' prev (escapeCh l) = [escapeCh l] := by
  induction l with
  | nil => intro prev; rfl
  | cons c rest ih =>
      intro prev
      by_cases h : reservedChar c = true
      · rw [escapeCh_cons_pos c _ h]
        rw [show splitCh ',' prev ('\\' :: c :: escapeCh rest)
              = consHead '\\' (splitCh ',' (some '\\') (c :: escapeCh rest)) from by
            rw [splitCh.eq_def]; simp]
        rw [show splitCh ',' (some '\\') (c :: escapeCh rest)
              = consHead c (splitCh ',' (some c) (escapeCh rest)) from by
            rw [splitCh.eq_def]; simp]
        rw [ih (some c)]
        rfl
      · have hc : ¬(c = ',') := by
          intro e; subst e; simp [reservedChar] at h
        rw [escapeCh_cons_neg c _ h]
        rw [show splitCh ',' prev (c :: escapeCh rest)
              = consHead c (splitCh ',' (some c) (escapeCh rest)) from by
            rw [splitCh.eq_def]; simp [hc]]
        rw [ih (some c)]
        rfl

/-- Encoding a one-element path is escaping the element. -/
theorem string_from_path_single (e : String) :
    string_from_path [some e] = String.mk (escapeCh e.data) := by
  simp [string_from_path, pyStr, _path_part_escape, joinWith]

/-- Decoding inverts encoding on one-element paths whose element is
non-empty and is not the `__null__` token. -/
theorem roundtrip_single (e : String) (h1 : e ≠ "") (h2 : e ≠ NULL_PATH_VALUE) :
    path_from_string (string_from_path [some e]) = [some e] := by
  have hdata : e.data ≠ [] := by
    intro hh
    apply h1
    cases e with
    | mk data =>
        simp at hh
        subst hh
        rfl
  rw [string_from_path_single]
  have hne : String.mk (escapeCh e.data) ≠ "" := by
    intro hh
    exact escapeCh_ne_nil e.data hdata (congrArg String.data hh)
  unfold path_from_string
  rw [if_neg hne]
  unfold splitUnescaped
  rw [show (String.mk (escapeCh e.data)).data = escapeCh e.data from rfl]
  rw [splitCh_escape e.data none]
  simp only [List.map]
  unfold _path_part_unescape
  rw [if_neg ?hnull]
  case hnull =>
    intro hh
    apply h2
    have h3 : escapeCh e.data = NULL_PATH_VALUE.data := congrArg String.data hh
    have h4 : unescapeCh (escapeCh e.data)
        = unescapeCh NULL_PATH_VALUE.data := congrArg unescapeCh h3
    rw [unescape_escape] at h4
    have h5 : unescapeCh NULL_PATH_VALUE.data = NULL_PATH_VALUE.data := by decide
    rw [h5] at h4
    cases e with
    | mk data =>
        simp at h4
        subst h4
        rfl
  rw [show unescapeCh (String.mk (escapeCh e.data)).data
        = unescapeCh (escapeCh e.data) from rfl]
  rw [unescape_escape]

/-! Helper lemmas about cut and cell equality. -/

/-- Cut equality tests exactly the fields `normCut` keeps. -/
theorem cutEq_iff_norm (c d : Cut) : cutEq c d = true ↔ normCut c = normCut d := by
  cases c <;> cases d <;> simp [cutEq, normCut, and_assoc]

/-- Cut equality is reflexive. -/
theorem cutEq_refl (c : Cut) : cutEq c c = true :=
  (cutEq_iff_norm c c).mpr rfl

/-- `normCut` is idempotent. -/
theorem normCut_idem (c : Cut) : normCut (normCut c) = normCut c := by
  cases c <;> rfl

/-- List membership through the cut classes' `__eq__` is membership of
the normalisation in the list of normalisations. -/
theorem listContains_iff (l : List Cut) (c : Cut) :
    listContains l c = true ↔ normCut c ∈ l.map normCut := by
  induction l with
  | nil => simp [listContains]
  | cons d rest ih =>
      simp only [listContains, List.any_cons, Bool.or_eq_true, List.map, List.mem_cons]
      rw [cutEq_iff_norm]
      constructor
      · rintro (h | h)
        · exact Or.inl h.symm
        · exact Or.inr ((ih).mp h)
      · rintro (h | h)
        · exact Or.inl h.symm
        · exact Or.inr ((ih).mpr h)

/-- A cut of the list is found by `listContains`. -/
theorem listContains_of_mem (l : List Cut) (c : Cut) (h : c ∈ l) :
    listContains l c = true :=
  (listContains_iff l c).mpr (List.mem_map_of_mem normCut h)

/-- `noDupCuts` is `Nodup` of the normalised list. -/
theorem noDupCuts_iff (l : List Cut) :
    noDupCuts l = true ↔ (l.map normCut).Nodup := by
  induction l with
  | nil => simp [noDupCuts]
  | cons c rest ih =>
      simp only [noDupCuts, Bool.and_eq_true, Bool.not_eq_true', List.map,
        List.nodup_cons]
      constructor
      · rintro ⟨h1, h2⟩
        refine ⟨fun hm => ?_, ih.mp h2⟩
        rw [show (listContains rest c = false) ↔ ¬(listContains rest c = true) by simp] at h1
        exact h1 ((listContains_iff rest c).mpr hm)
      · rintro ⟨h1, h2⟩
        refine ⟨?_, ih.mpr h2⟩
        rw [show (listContains rest c = false) ↔ ¬(listContains rest c = true) by simp]
        exact fun hm => h1 ((listContains_iff rest c).mp hm)

/-- Two booleans agreeing as propositions are equal. -/
theorem boolEqOfIff (x y : Bool) (h : x = true ↔ y = true) : x = y := by
  cases x <;> cases y <;> simp_all

/-- Characterisation of `Cell.__eq__`: equal lengths plus normalised-key
inclusion of the left cuts in the right cuts. -/
theorem cellEq_char (a b : Cell) :
    Cell.eq a b = true ↔
      (a.cuts.length = b.cuts.length ∧
        ∀ k ∈ a.cuts.map normCut, k ∈ b.cuts.map normCut) := by
  simp only [Cell.eq, Bool.and_eq_true, decide_eq_true_eq, List.all_eq_true]
  constructor
  · rintro ⟨h1, h2⟩
    refine ⟨h1, fun k hk => ?_⟩
    obtain ⟨c, hc, rfl⟩ := List.mem_map.mp hk
    exact (listContains_iff b.cuts c).mp (h2 c hc)
  · rintro ⟨h1, h2⟩
    refine ⟨h1, fun c hc => ?_⟩
    exact (listContains_iff b.cuts c).mpr (h2 (normCut c) (List.mem_map_of_mem normCut hc))

/-- `Cell.__eq__` is reflexive. -/
theorem cellEq_refl (a : Cell) : Cell.eq a a = true :=
  (cellEq_char a a).mpr ⟨rfl, fun _ hk => hk⟩

/-! Helper lemmas about `indexOfName` (for `Cell.slice`) and the found
index (for `Cell.rollup_dim`). -/

/-- When no name matches, `list.index` fails and the index is `None`. -/
theorem indexOfName_none (l : List Cut) (x : Option String)
    (h : ∀ c ∈ l, Cut.dimension c ≠ x) :
    indexOfName (l.map Cut.dimension) x = none := by
  induction l with
  | nil => rfl
  | cons c rest ih =>
      simp only [List.map, indexOfName]
      rw [if_neg (h c (List.mem_cons_self c rest))]
      rw [ih (fun d hd => h d (List.mem_cons_of_mem c hd))]
      rfl

/-- When position `i` holds the first matching name, `list.index`
returns `i`. -/
theorem indexOfName_first (l : List Cut) (x : Option String) (i : Nat)
    (h : i < l.length) (hi : (l.get ⟨i, h⟩).dimension = x)
    (hmin : ∀ j (hj : j < l.length), j < i → (l.get ⟨j, hj⟩).dimension ≠ x) :
    indexOfName (l.map Cut.dimension) x = some i := by
  induction l generalizing i with
  | nil => exact absurd h (Nat.not_lt_zero i)
  | cons c rest ih =>
      cases i with
      | zero =>
          have hi' : Cut.dimension c = x := hi
          simp only [List.map, indexOfName]
          rw [if_pos hi']
      | succ i' =>
          simp only [List.map, indexOfName]
          have hc : Cut.dimension c ≠ x :=
            hmin 0 (Nat.succ_le_succ (Nat.zero_le _)) (Nat.succ_pos i')
          rw [if_neg hc]
          have h' : i' < rest.length := Nat.lt_of_succ_lt_succ h
          rw [ih i' h' hi (fun j hj hji =>
            hmin (j + 1) (Nat.succ_lt_succ hj) (Nat.succ_lt_succ hji))]
          rfl

/-- If `find?` fails then so does the index search with the same
predicate. -/
theorem findIdxCut_none (p : Cut → Bool) (l : List Cut)
    (h : l.find? p = none) : findIdxCut p l = none := by
  induction l with
  | nil => rfl
  | cons c rest ih =>
      by_cases hp : p c = true
      · rw [List.find?_cons_of_pos _ hp] at h
        exact absurd h (by simp)
      · rw [List.find?_cons_of_neg _ (by simp [hp])] at h
        simp only [findIdxCut]
        rw [if_neg (by simp [hp]), ih h]
        rfl

/-! The claims. -/

/-- C1: the claim says decoding a cut's encoded string form returns an
equal cut (`cut_from_string(str(cut)) == cut`).  In this code the decode
side never returns at all: the locals `dimension` and `hierarchy` of
`cut_from_string` are only annotated, never assigned (with the default
`cube=None`), so every successful parse raises `UnboundLocalError` when
the cut constructor's arguments are evaluated.  Evaluated here on
`PointCut("date", ["2004"])`, whose string form is `date:2004`; the final
conjunct shows no input string whatsoever decodes successfully. -/
theorem C1_cut_from_string_always_raises :
    samplePoint.str = ("date:2004") ∧
    cut_from_string ("date:2004") = .error .unboundLocalError ∧
    ∀ s : String, isOkE (cut_from_string s) = false := by
  refine ⟨by decide, by decide, fun s => ?_⟩
  unfold cut_from_string
  repeat' split <;> try rfl

/-- C2: the claim says `rollup` errors on non-Point cuts for a named
dimension, skips absent dimensions for list specs and raises for absent
dimensions in mapping specs.  The code instead: raises
`NotImplementedError` precisely when the cut IS a `PointCut` (the
`isinstance` check lost its negation), raises `AttributeError` for the
Range/Set cuts the message claims to reject, and raises
`ArgumentError("Rollup is of unknown type")` for every mapping spec —
present dimension or not — because it tests `isinstance(self.drilldown,
dict)`, a bound method, instead of the argument.  Only the silent skip
of absent dimensions in list specs survives (last conjunct). -/
theorem C2_rollup_inverted_isinstance :
    Cell.rollup cellPointDate (RollupSpec.listOf [("date")])
      = .error .notImplementedError ∧
    Cell.rollup cellRangeDate (RollupSpec.listOf [("date")])
      = .error .attributeError ∧
    Cell.rollup cellPointDate (RollupSpec.mapping [(("date"), ("year"))])
      = .error .argumentError ∧
    Cell.rollup cellRangeDate (RollupSpec.mapping [(("date"), ("year"))])
      = .error .argumentError ∧
    Cell.rollup (Cell.mk []) (RollupSpec.listOf [("date")])
      = .ok (Cell.mk []) := by
  decide

/-- C3 counterexample: with the default `include_summary=True`, an
unpaginated high-cardinality drilldown call raises the
unbounded-drilldown error only AFTER the summary query has executed, so
the claim "neither the summary query nor the drilldown query runs" is
false: the trace already holds the summary query. -/
theorem C3_summary_runs_before_guard :
    (provide_aggregate aggHighSummaryOn).1 = .error .unboundedDrilldown ∧
    (provide_aggregate aggHighSummaryOn).2 = [QueryTag.summary] := by
  decide

/-- C3 amended: the cardinality guard fires before the drilldown and
cell-count queries execute, and when `include_summary` is off no query at
all executes; with `include_summary` on (the default) the summary query
has already run when the error is raised. -/
theorem C3_guard_before_drilldown_query (a : AggArgs)
    (hdd : (a.drilldown || a.split) = true)
    (hpage : (truthyNat a.pageSize && a.page.isSome) = false)
    (hcard : a.highCardinality = true) :
    (provide_aggregate a).1 = .error .unboundedDrilldown ∧
    QueryTag.drilldownQ ∉ (provide_aggregate a).2 ∧
    QueryTag.countQ ∉ (provide_aggregate a).2 ∧
    (a.includeSummary = false → (provide_aggregate a).2 = []) := by
  unfold provide_aggregate
  rw [hdd, hpage, hcard]
  cases hs : a.includeSummary <;> simp [hs, hdd]

/-- C3 amended, witnessed: with `include_summary` off, the guarded call
errors with an empty query trace. -/
theorem C3_guard_witness :
    (provide_aggregate aggHighSummaryOff).1 = .error .unboundedDrilldown ∧
    (provide_aggregate aggHighSummaryOff).2 = [] := by
  have h := C3_guard_before_drilldown_query aggHighSummaryOff
    (by decide) (by decide) (by decide)
  exact ⟨h.1, h.2.2.2 (by decide)⟩

/-- C4: the claim says rows with a null built-in aggregate are dropped
lazily during iteration.  The filter line of `ResultIterator.__iter__`
spells the attribute `exclude_if_nul` (and names an undefined `cell`),
so as soon as null-exclusion is enabled and a row arrives the iteration
raises `AttributeError` instead of filtering; with the filter disabled
the same rows — the null one included — are yielded as label-value
dictionaries. -/
theorem C4_null_filter_misspelled_attribute :
    itExcl.iterate = .error .attributeError ∧
    itPlain.iterate = .ok [[(("a_sum"), some 1)], [(("a_sum"), none)]] := by
  decide

/-- C7: the claim says a cut with an empty path is omitted from
`deepest_levels` when `include_empty` is false.  The source's
`levels.append(item)` sits outside the `if depth: ... elif
include_empty:` conditional, so an empty-path cut re-appends the
previous iteration's triple — or, when it is the first cut, reads the
unbound local `item` and raises.  With `include_empty=True` the `None`
triple is produced as claimed (last conjunct). -/
theorem C7_deepest_levels_stale_item :
    Cell.deepest_levels sampleDimModel cellEmptyOnly false
      = .error .unboundLocalError ∧
    Cell.deepest_levels sampleDimModel cellMixed false
      = .ok [(some ("d"), ("default"), some ("L1")),
             (some ("d"), ("default"), some ("L1"))] ∧
    Cell.deepest_levels sampleDimModel cellMixed true
      = .ok [(some ("d"), ("default"), some ("L1")),
             (some ("e"), ("default"), none)] := by
  decide

/-- C5 counterexample: cell equality is NOT set equality of the cuts and
is not symmetric.  With `x = PointCut("d",["1"])`, `y = PointCut("d",["2"])`,
`Cell([x,x]) == Cell([x,y])` is `True` although `y` belongs to the second
cell's cuts and not to the first's — the cut sets differ — and the
reversed comparison is `False`. -/
theorem C5_eq_not_set_equality :
    Cell.eq cellXX cellXY = true ∧
    listContains cellXY.cuts cutY = true ∧
    listContains cellXX.cuts cutY = false ∧
    Cell.eq cellXY cellXX = false := by
  decide

/-- C5 amended: on cells whose cut lists are duplicate-free (with respect
to cut equality), `Cell.__eq__` coincides with order-independent set
equality of the cuts and is symmetric; the claim's concrete instance
`Cell([x,y]) == Cell([y,x])` holds for all cuts. -/
theorem C5_eq_set_equality_nodup :
    (∀ x y : Cut, Cell.eq (Cell.mk [x, y]) (Cell.mk [y, x]) = true) ∧
    (∀ a b : Cell, noDupCuts a.cuts = true → noDupCuts b.cuts = true →
      (Cell.eq a b = true ↔
        ∀ c : Cut, listContains a.cuts c = listContains b.cuts c)) := by
  constructor
  · intro x y
    apply (cellEq_char _ _).mpr
    refine ⟨rfl, fun k hk => ?_⟩
    simp only [Cell.mk, List.map, List.mem_cons, List.not_mem_nil, or_false] at hk ⊢
    tauto
  · intro a b hna hnb
    have hka := (noDupCuts_iff a.cuts).mp hna
    have hkb := (noDupCuts_iff b.cuts).mp hnb
    constructor
    · intro heq
      obtain ⟨hlen, hsub⟩ := (cellEq_char a b).mp heq
      have hcards : (a.cuts.map normCut).toFinset = (b.cuts.map normCut).toFinset := by
        apply Finset.eq_of_subset_of_card_le
        · intro k hk
          exact List.mem_toFinset.mpr (hsub k (List.mem_toFinset.mp hk))
        · rw [List.toFinset_card_of_nodup hka, List.toFinset_card_of_nodup hkb]
          simp [hlen]
      intro c
      apply boolEqOfIff
      rw [listContains_iff, listContains_iff]
      rw [show (normCut c ∈ a.cuts.map normCut) ↔
            (normCut c ∈ (a.cuts.map normCut).toFinset) from (List.mem_toFinset).symm]
      rw [show (normCut c ∈ b.cuts.map normCut) ↔
            (normCut c ∈ (b.cuts.map normCut).toFinset) from (List.mem_toFinset).symm]
      rw [hcards]
    · intro hmem
      have hsets : ∀ k, k ∈ a.cuts.map normCut ↔ k ∈ b.cuts.map normCut := by
        intro k
        constructor
        · intro hk
          obtain ⟨c, hc, rfl⟩ := List.mem_map.mp hk
          have h1 : listContains a.cuts c = true := listContains_of_mem _ _ hc
          have h2 : listContains b.cuts c = true := by rw [← hmem c]; exact h1
          exact (listContains_iff _ _).mp h2
        · intro hk
          obtain ⟨c, hc, rfl⟩ := List.mem_map.mp hk
          have h1 : listContains b.cuts c = true := listContains_of_mem _ _ hc
          have h2 : listContains a.cuts c = true := by rw [hmem c]; exact h1
          exact (listContains_iff _ _).mp h2
      have hfin : (a.cuts.map normCut).toFinset = (b.cuts.map normCut).toFinset := by
        apply Finset.ext
        intro k
        rw [List.mem_toFinset, List.mem_toFinset]
        exact hsets k
      apply (cellEq_char a b).mpr
      constructor
      · have hla : (a.cuts.map normCut).toFinset.card = a.cuts.length := by
          rw [List.toFinset_card_of_nodup hka, List.length_map]
        have hlb : (b.cuts.map normCut).toFinset.card = b.cuts.length := by
          rw [List.toFinset_card_of_nodup hkb, List.length_map]
        rw [← hla, ← hlb, hfin]
      · exact fun k hk => (hsets k).mp hk

/-- C5 amended, witnessed: on the duplicate-free cells `Cell([x,y])` and
`Cell([y,x])` the set-equality characterisation applies and gives equal
membership answers for `y`. -/
theorem C5_eq_set_equality_witness :
    noDupCuts cellXY.cuts = true ∧ noDupCuts cellYX.cuts = true ∧
    listContains cellXY.cuts cutY = listContains cellYX.cuts cutY :=
  ⟨by decide, by decide,
    ((C5_eq_set_equality_nodup.2 cellXY cellYX (by decide) (by decide)).mp
      (by decide)) cutY⟩

/-- C6 counterexample: the one-element path holding the empty string does
NOT encode to the sentinel token — it encodes to the empty string, the
same encoding as the wholly absent path — and decodes back to the empty
path rather than to the empty-string element. -/
theorem C6_empty_element_not_sentinel :
    string_from_path [some ("")] = "" ∧
    string_from_path [some ("")] ≠ NULL_PATH_VALUE ∧
    path_from_string (string_from_path [some ("")]) = [] ∧
    string_from_path [some ("")] = string_from_path [] := by
  decide

/-- C6 amended: a one-element path round-trips exactly through
`string_from_path` then `path_from_string` whenever its element is
non-empty and differs from the `__null__` token — in particular for
every element containing reserved characters or backslashes; the
empty-string element instead encodes identically to the absent path
(the empty string) and decodes to the empty path. -/
theorem C6_reserved_roundtrip :
    (∀ e : String, e ≠ "" → e ≠ NULL_PATH_VALUE →
        path_from_string (string_from_path [some e]) = [some e]) ∧
    string_from_path [some ("")] = string_from_path [] ∧
    path_from_string (string_from_path [some ("")]) = [] := by
  refine ⟨fun e h1 h2 => roundtrip_single e h1 h2, by decide, by decide⟩

/-- C6 amended, witnessed on an element containing every reserved
character and the backslash. -/
theorem C6_reserved_roundtrip_witness :
    (("a\\b|c:d;e,f-g!h") ≠ "" ∧ ("a\\b|c:d;e,f-g!h") ≠ NULL_PATH_VALUE) ∧
    path_from_string (string_from_path [some ("a\\b|c:d;e,f-g!h")])
      = [some ("a\\b|c:d;e,f-g!h")] :=
  ⟨⟨by decide, by decide⟩,
    C6_reserved_roundtrip.1 ("a\\b|c:d;e,f-g!h") (by decide) (by decide)⟩

/-- C8: `Cell.slice` replaces the first cut whose dimension equals the
new cut's dimension, or appends the new cut when no dimension matches;
all other cuts keep their positions (the list is updated at exactly the
found index). -/
theorem C8_slice_replaces_first_or_appends (cell : Cell) (c : Cut) :
    ((∀ x ∈ cell.cuts, x.dimension ≠ c.dimension) →
        (cell.slice c).cuts = cell.cuts ++ [c]) ∧
    (∀ i (h : i < cell.cuts.length),
        (cell.cuts.get ⟨i, h⟩).dimension = c.dimension →
        (∀ j (hj : j < cell.cuts.length), j < i →
            (cell.cuts.get ⟨j, hj⟩).dimension ≠ c.dimension) →
        (cell.slice c).cuts = cell.cuts.set i c) := by
  constructor
  · intro h
    unfold Cell.slice Cell._dimension_cut_index
    rw [indexOfName_none cell.cuts c.dimension h]
  · intro i h hi hmin
    unfold Cell.slice Cell._dimension_cut_index
    rw [indexOfName_first cell.cuts c.dimension i h hi hmin]

/-- C8, witnessed: slicing `Cell([PointCut("d",["1"])])` with
`PointCut("d",["2"])` replaces the cut at position 0, yielding the
one-cut cell of the claim's example. -/
theorem C8_slice_witness :
    ((Cell.mk [cutX]).slice cutY).cuts = [cutY] := by
  have h := (C8_slice_replaces_first_or_appends (Cell.mk [cutX]) cutY).2
    0 (by decide) (by decide)
    (fun j hj hj0 => absurd hj0 (Nat.not_lt_zero j))
  simpa using h

/-- C9: `rollup_dim` on a cell with no point cut for the dimension
returns (a copy of) the cell unchanged — a silent no-op, not an error —
whatever the external hierarchy roll-up does, and the result compares
equal to the original cell. -/
theorem C9_rollup_dim_noop (hr : Option Path → Option String → Path)
    (cell : Cell) (dim : String) (level : Option String)
    (hier : Option String)
    (h : cell.point_cut_for_dimension dim = none) :
    Cell.rollup_dim hr cell dim level hier = cell ∧
    Cell.eq (Cell.rollup_dim hr cell dim level hier) cell = true := by
  have hidx : findIdxCut
      (fun c => c.isPoint && decide (c.dimension = some dim)) cell.cuts = none :=
    findIdxCut_none _ _ h
  constructor
  · unfold Cell.rollup_dim
    rw [hidx]
  · unfold Cell.rollup_dim
    rw [hidx]
    exact cellEq_refl cell

/-- C9, witnessed: the cell holding only `RangeCut("date", ...)` has no
point cut for `date`, and rolling `date` up leaves it untouched. -/
theorem C9_rollup_dim_noop_witness :
    Cell.point_cut_for_dimension cellRangeDate ("date") = none ∧
    Cell.rollup_dim (fun _ _ => []) cellRangeDate ("date") none none
      = cellRangeDate :=
  ⟨by decide,
    (C9_rollup_dim_noop (fun _ _ => []) cellRangeDate ("date") none none
      (by decide)).1⟩

/-- C10: `cut_from_dict` never restores the hidden flag — every cut it
returns has `hidden = False` — and the result does not depend on the
dictionary's `hidden` (or `level_depth`) entry at all. -/
theorem C10_hidden_never_restored :
    (∀ (d : CutDict) (c : Cut), cut_from_dict d = .ok c → c.hidden = false) ∧
    (∀ (d : CutDict) (b : Option Bool) (n : Option (Option Nat)),
        cut_from_dict { d with hidden := b, level_depth := n }
          = cut_from_dict d) := by
  constructor
  · intro d c h
    unfold cut_from_dict at h
    split at h
    · cases h
    · split at h
      · cases h; rfl
      · split at h
        · cases h; rfl
        · split at h
          · cases h; rfl
          · cases h
  · intro d b n
    rfl

/-- C10, witnessed: the dictionary produced by
`PointCut("d", ["1"], hidden=True).to_dict()` decodes to the same point
cut with `hidden == False`. -/
theorem C10_hidden_witness :
    samplePointHidden.to_dict = .ok sampleCutDict ∧
    cut_from_dict sampleCutDict = .ok samplePointShown ∧
    samplePointShown.hidden = false :=
  ⟨by decide, by decide,
    C10_hidden_never_restored.1 sampleCutDict samplePointShown (by decide)⟩

end Cubes
